import Mathlib

/-!
Verification of the jikan-lite core against its specification.

Shallow embedding of:
* the query translator (`src/api/v4/database/helpers/query-to-sql.ts`),
* the query-options serializer (`src/api/v4/utils/query-to-string.ts`),
* the cache module and its two backends (`src/api/v4/cache.ts`,
  `src/api/v4/cache/memory.ts`, `src/api/v4/cache/redis.ts`),
* the anime repository (`src/api/v4/database/repository/anime-repository.ts`),
* the anime service (`src/api/v4/services/anime-service.ts`),
* the sync pipeline (`src/api/v4/cli/commands/sync-anime.ts`).

Machine integers of the source (JS numbers used as integers) are modelled as
`Int`/`Nat`.  The domain entity's field list is declared out of scope by the
specification (Section 1), so `Anime` is modelled with its identifying field
and one representative payload field; row-to-entity conversion is modelled as
the identity on these fields.
-/

/-- A JavaScript value as it occurs in filter maps and SQL parameter lists:
a string, an integer-valued number, or `null`.  `undefined` is modelled by
wrapping in `Option` (`none` = absent/undefined). -/
inductive JVal where
  | jstr (s : String) : JVal
  | jint (n : Int) : JVal
  | jnull : JVal
deriving DecidableEq, Repr

/-- Render a `JVal` the way JS template-literal coercion does (`null` is not
rendered by the code paths modelled here, so it maps to the literal "null"). -/
def JVal.render : JVal → String
  | .jstr s => s
  | .jint n => toString n
  | .jnull => "null"

/-- `QueryOptions` from `src/api/v4/database/types/repository.ts`:
`page`, `limit` are optional JS numbers (modelled as integer-valued),
`orderBy`, `orderDirection`, `search` are optional strings, and `filters`
is a string-keyed record whose values may be `undefined` (`none`). -/
structure QueryOptions where
  page : Option Int := none
  limit : Option Int := none
  orderBy : Option String := none
  orderDirection : Option String := none
  search : Option String := none
  filters : List (String × Option JVal) := []
deriving DecidableEq, Repr

/-- A column as returned by `PRAGMA table_info` via `getColumns`
(`src/api/v4/database/helpers/column.ts`): its name and declared type. -/
structure Column where
  name : String
  type : String
deriving DecidableEq, Repr

/-- JS truthiness of an optional number: `undefined`, `0` are falsy. -/
def truthyIntOpt : Option Int → Bool
  | none => false
  | some n => n != 0

/-- JS truthiness of an optional string: `undefined`, `""` are falsy. -/
def truthyStrOpt : Option String → Bool
  | none => false
  | some s => s != ""

/-- `quoteIdent` from `query-to-sql.ts` line 21: quote an identifier with
backticks, doubling embedded backticks (`name.replace(/`/g, "``")`,
character by character). -/
def quoteIdent (name : String) : String :=
  "`" ++ String.mk (name.data.foldr (fun c acc => if c = '`' then '`' :: '`' :: acc else c :: acc) []) ++ "`"

/-- `isPositiveInt` from `query-to-sql.ts` line 29:
`Number.isInteger(n) && n >= 0`.  Numbers are modelled as integer-valued,
so the integrality test holds whenever the value is present. -/
def isPositiveInt : Option Int → Bool
  | none => false
  | some n => decide (0 ≤ n)

/-- Character-list test for "`ps` begins with `pat`". -/
def startsWithChars : List Char → List Char → Bool
  | _, [] => true
  | [], _ :: _ => false
  | c :: cs, p :: ps => c == p && startsWithChars cs ps

/-- `String.prototype.includes`: the pattern occurs as a contiguous
substring (an empty pattern always occurs). -/
def containsChars : List Char → List Char → Bool
  | [], pat => pat.isEmpty
  | c :: rest, pat => startsWithChars (c :: rest) pat || containsChars rest pat

/-- Substring test `s.includes(pat)`. -/
def strIncludesSub (s pat : String) : Bool :=
  containsChars s.data pat.data

/-- `String.prototype.toUpperCase`, character by character. -/
def strToUpper (s : String) : String :=
  String.mk (s.data.map Char.toUpper)

/-- The SQL text types accepted by the search block of `query-to-sql.ts`
(line 78): `["TEXT", "VARCHAR", "CHAR", "CLOB"]`. -/
def sqlTextTypes : List String := ["TEXT", "VARCHAR", "CHAR", "CLOB"]

/-- The filter-collection loop shared verbatim by `QueryToSQL` (lines 64-71)
and `CountQueryToSQL` (lines 132-139): for each `filters` entry whose value
is defined (`!== undefined`) and whose key is a known column, push the
clause `` `key` = ? `` and the value as a parameter, in entry order. -/
def collectFilters (colNames : List String) : List (String × Option JVal) → List String × List JVal
  | [] => ([], [])
  | (k, some v) :: rest =>
    if colNames.contains k then
      let r := collectFilters colNames rest
      ((quoteIdent k ++ " = ?") :: r.1, v :: r.2)
    else collectFilters colNames rest
  | (_, none) :: rest => collectFilters colNames rest

/-- The title-search column selection shared verbatim by `QueryToSQL`
(lines 77-80) and `CountQueryToSQL` (lines 144-147): text-typed columns
whose name contains the substring "title". -/
def titleTextCols (cols : List Column) : List String :=
  (cols.filter fun c => sqlTextTypes.contains (strToUpper c.type) && strIncludesSub c.name "title").map (·.name)

/-- The search block shared verbatim by `QueryToSQL` (lines 76-88) and
`CountQueryToSQL` (lines 143-155): an OR-joined `LIKE ?` clause over the
title text columns, each bound to `%search%`, prefixed with " AND" when
equality filters exist and " WHERE" otherwise. -/
def searchBlock (hasFilters : Bool) (cols : List Column) (search : String) : String × List JVal :=
  let textCols := titleTextCols cols
  if textCols.isEmpty then ("", [])
  else
    ((if hasFilters then " AND" else " WHERE") ++ " (" ++
       String.intercalate " OR " (textCols.map fun c => quoteIdent c ++ " LIKE ?") ++ ")",
     textCols.map fun _ => JVal.jstr ("%" ++ search ++ "%"))

/-- The head of the selection query (`query-to-sql.ts` lines 58-59), with the
template literal's embedded newline and indentation. -/
def selectHead : String := "SELECT *\n               FROM "

/-- The head of the counting query (`query-to-sql.ts` lines 126-127). -/
def countHead : String := "SELECT COUNT(*) as count\n               FROM "

/-- `QueryToSQL` from `query-to-sql.ts` lines 53-107.  The schema lookup
(`getColumns` over the live database) is passed in as `cols`.  Produces the
SQL text and the bound-parameter list. -/
def QueryToSQL (cols : List Column) (query : QueryOptions) (tableName : String) : String × List JVal :=
  let colNames := cols.map (·.name)
  let fp := collectFilters colNames query.filters
  let sql1 := selectHead ++ quoteIdent tableName ++
    (if fp.1.isEmpty then "" else " WHERE " ++ String.intercalate " AND " fp.1)
  let sp := if truthyStrOpt query.search then searchBlock (!fp.1.isEmpty) cols (query.search.getD "") else ("", [])
  let sql2 := sql1 ++ sp.1
  let sql3 :=
    if truthyStrOpt query.orderBy && colNames.contains (query.orderBy.getD "") then
      let dir := if (query.orderDirection.map strToUpper) = some "DESC" then "DESC" else "ASC"
      sql2 ++ " ORDER BY " ++ quoteIdent (query.orderBy.getD "") ++ " " ++ dir
    else sql2
  if isPositiveInt query.limit then
    if isPositiveInt query.page then
      (sql3 ++ " LIMIT ?" ++ " OFFSET ?",
       fp.2 ++ sp.2 ++ [JVal.jint (query.limit.getD 0), JVal.jint ((query.page.getD 0 - 1) * query.limit.getD 0)])
    else
      (sql3 ++ " LIMIT ?", fp.2 ++ sp.2 ++ [JVal.jint (query.limit.getD 0)])
  else (sql3, fp.2 ++ sp.2)

/-- `CountQueryToSQL` from `query-to-sql.ts` lines 121-158: the counting
variant, which repeats the filter and search blocks of `QueryToSQL` verbatim
(the shared helpers above) and stops there: no ORDER BY, LIMIT or OFFSET. -/
def CountQueryToSQL (cols : List Column) (query : QueryOptions) (tableName : String) : String × List JVal :=
  let colNames := cols.map (·.name)
  let fp := collectFilters colNames query.filters
  let sql1 := countHead ++ quoteIdent tableName ++
    (if fp.1.isEmpty then "" else " WHERE " ++ String.intercalate " AND " fp.1)
  let sp := if truthyStrOpt query.search then searchBlock (!fp.1.isEmpty) cols (query.search.getD "") else ("", [])
  (sql1 ++ sp.1, fp.2 ++ sp.2)

/-- Hex rendering of one byte, upper case, two digits. -/
def byteToHex (b : UInt8) : String :=
  let digits := "0123456789ABCDEF".toList
  String.mk [digits.getD (b.toNat / 16) '0', digits.getD (b.toNat % 16) '0']

/-- A model of JS `encodeURIComponent`: unreserved characters are kept,
every other character's UTF-8 bytes are percent-encoded. -/
def encodeURIComponent (s : String) : String :=
  let unreserved := fun (c : Char) =>
    c.isAlphanum || c = '-' || c = '_' || c = '.' || c = '!' || c = '~' || c = '*' || c = '(' || c = ')'
  String.join <| s.toList.map fun c =>
    if unreserved c then String.singleton c
    else String.join (((String.singleton c).toUTF8.toList).map fun b => "%" ++ byteToHex b)

/-- `QueryToString` from `src/api/v4/utils/query-to-string.ts`: serializes
query options to a `&`-separated string.  Note: it reads `page`, `limit`,
`orderBy`, `orderDirection` and the defined, non-null `filters` entries, and
nothing else. -/
def QueryToString (query : QueryOptions) : String :=
  let q1 := if truthyIntOpt query.page then "&page=" ++ toString (query.page.getD 0) else ""
  let q2 := q1 ++ (if truthyIntOpt query.limit then "&limit=" ++ toString (query.limit.getD 0) else "")
  let q3 := q2 ++ (if truthyStrOpt query.orderBy then "&order_by=" ++ query.orderBy.getD "" else "")
  let q4 := q3 ++ (if truthyStrOpt query.orderDirection then "&order_direction=" ++ query.orderDirection.getD "" else "")
  query.filters.foldl
    (fun acc kv =>
      match kv.2 with
      | some JVal.jnull => acc
      | some v => acc ++ "&" ++ kv.1 ++ "=" ++ encodeURIComponent v.render
      | none => acc)
    q4

/-- The catalog entity.  The specification (Section 1) declares the entity's
field list out of scope, so the model keeps the identifying `mal_id` and one
representative scalar payload field. -/
structure Anime where
  mal_id : Nat
  title : String
deriving DecidableEq, Repr

/-- `Partial<Anime>` over the modelled fields: every field optional. -/
structure AnimePatch where
  mal_id : Option Nat := none
  title : Option String := none
deriving DecidableEq, Repr

/-- `JSON.stringify` of an `Anime` over the modelled fields.  The model does
not escape quote characters inside `title`; theorems that deserialize carry
an explicit round-trip hypothesis, discharged on concrete inputs. -/
def stringifyAnime (a : Anime) : String :=
  "\x7b\"mal_id\":" ++ toString a.mal_id ++ ",\"title\":\"" ++ a.title ++ "\"\x7d"

/-- Split a character list at the first occurrence of `sep`, when any. -/
def splitOnceChars (sep : List Char) : List Char → Option (List Char × List Char)
  | [] => none
  | c :: rest =>
    if startsWithChars (c :: rest) sep then some ([], (c :: rest).drop sep.length)
    else
      match splitOnceChars sep rest with
      | some r => some (c :: r.1, r.2)
      | none => none

/-- Decimal digits to a number (`none` on empty or non-digit input). -/
def digitsToNat : List Char → Option Nat
  | [] => none
  | cs =>
    cs.foldl
      (fun acc c => acc.bind fun n => if c.isDigit then some (n * 10 + (c.toNat - 48)) else none)
      (some 0)

/-- `JSON.parse` of a serialized `Anime` (partial inverse of
`stringifyAnime`; `none` models a parse that does not yield an entity). -/
def parseAnime (s : String) : Option Anime :=
  let p1 := "\x7b\"mal_id\":".data
  let p2 := ",\"title\":\"".data
  let p3 := "\"\x7d".data
  if startsWithChars s.data p1 then
    match splitOnceChars p2 (s.data.drop p1.length) with
    | some r =>
      match digitsToNat r.1 with
      | some n =>
        if startsWithChars ((r.2).drop (r.2.length - p3.length)) p3 && decide (p3.length ≤ r.2.length) then
          some ⟨n, String.mk (r.2.take (r.2.length - p3.length))⟩
        else none
      | none => none
    | none => none
  else none

/-- `JSON.stringify` of an `Anime` array. -/
def stringifyAnimeList (l : List Anime) : String :=
  "[" ++ String.intercalate "," (l.map stringifyAnime) ++ "]"

/-- Split a character list at every occurrence of `sep` (fuelled by the
input length, which bounds the number of occurrences). -/
def splitAllCharsAux (sep : List Char) : Nat → List Char → List (List Char)
  | 0, s => [s]
  | Nat.succ fuel, s =>
    match splitOnceChars sep s with
    | some r => r.1 :: splitAllCharsAux sep fuel r.2
    | none => [s]

/-- Split a character list at every occurrence of `sep`. -/
def splitAllChars (sep s : List Char) : List (List Char) :=
  splitAllCharsAux sep s.length s

/-- `JSON.parse` of a serialized `Anime` array (partial inverse of
`stringifyAnimeList`). -/
def parseAnimeList (s : String) : Option (List Anime) :=
  if startsWithChars s.data "[".data && startsWithChars (s.data.drop (s.data.length - 1)) "]".data
      && decide (1 ≤ s.data.length) then
    let inner := (s.data.drop 1).take (s.data.length - 2)
    if inner.isEmpty then some []
    else
      let parts := splitAllChars "\x7d,\x7b".data inner
      let n := parts.length
      let rebuilt := ((List.range n).zip parts).map fun ip =>
        (if ip.1 == 0 then [] else "\x7b".data) ++ ip.2 ++ (if ip.1 == n - 1 then [] else "\x7d".data)
      (rebuilt.map (fun cs => parseAnime (String.mk cs))).foldr
        (fun oa acc =>
          match oa, acc with
          | some a, some l => some (a :: l)
          | _, _ => none)
        (some [])
  else none

/-- `JSON.stringify` of a pending Promise object: a Promise has no
enumerable own properties, so it serializes as the empty JSON object. -/
def promiseJson : String := "\x7b\x7d"

/-- A JS Promise as a value.  `value` is what the promise resolves to. -/
structure JSPromise (α : Type) where
  value : α
deriving DecidableEq, Repr

/-- JS truthiness of a Promise object: an object is always truthy. -/
def JSPromise.truthy {α : Type} (_ : JSPromise α) : Bool := true

/-- Update an association list at a key, preserving position, appending when
absent (the observable behavior of `Map.prototype.set`). -/
def alistSet {α : Type} (l : List (String × α)) (k : String) (v : α) : List (String × α) :=
  if l.any (·.1 == k) then l.map (fun kv => if kv.1 == k then (k, v) else kv) else l ++ [(k, v)]

/-- Remove a key from an association list (`Map.prototype.delete`). -/
def alistRemove {α : Type} (l : List (String × α)) (k : String) : List (String × α) :=
  l.filter (·.1 != k)

/-- An entry of the in-memory cache (`memory.ts`): the value and the optional
absolute expiry time in milliseconds.  The `setTimeout` timer of the source
proactively deletes the entry at `expiresAt`; visibility-wise this coincides
with the lazy expiry check in `get`, so the timer handle itself carries no
extra observable state. -/
structure MemCacheEntry where
  value : String
  expiresAt : Option Nat := none
deriving DecidableEq, Repr

/-- `MemoryCache` (`memory.ts`): a private `Map` from keys to entries. -/
structure MemoryCache where
  store : List (String × MemCacheEntry) := []
deriving DecidableEq, Repr

/-- `MemoryCache.get` (`memory.ts` lines 29-39): lazy expiry check against
`Date.now()` (the `now` argument, in milliseconds), removal when expired. -/
def MemoryCache.get (c : MemoryCache) (now : Nat) (key : String) : Option String × MemoryCache :=
  match c.store.lookup key with
  | none => (none, c)
  | some e =>
    match e.expiresAt with
    | some t => if now ≥ t then (none, ⟨alistRemove c.store key⟩) else (some e.value, c)
    | none => (some e.value, c)

/-- `MemoryCache.set` (`memory.ts` lines 51-66): replaces any previous entry
(which also cancels its timer) and schedules expiry at `now + ttl*1000` when
a positive `ttl` (seconds) is given; `ttl = 0` or absent means no expiry. -/
def MemoryCache.set (c : MemoryCache) (now : Nat) (key value : String) (ttl : Option Nat) : MemoryCache :=
  let e : MemCacheEntry :=
    match ttl with
    | some t => if t > 0 then { value := value, expiresAt := some (now + t * 1000) } else { value := value }
    | none => { value := value }
  ⟨alistSet c.store key e⟩

/-- `MemoryCache.delete` (`memory.ts` lines 74-77). -/
def MemoryCache.delete (c : MemoryCache) (key : String) : MemoryCache :=
  ⟨alistRemove c.store key⟩

/-- `MemoryCache.clear` (`memory.ts` lines 84-89). -/
def MemoryCache.clear (_ : MemoryCache) : MemoryCache := ⟨[]⟩

/-- `CACHE_TTL` from `cache.ts` line 5: default 3600 seconds when the
environment variable is unset. -/
def CACHE_TTL : Nat := 3600

/-- The heap of `MemoryCache` objects allocated so far by `getCacheStore`.
Each module-level cache function in `cache.ts` calls `getCacheStore()`, which
(with `CACHE_STORE=memory`) executes `new MemoryCache()`: a fresh object with
an empty `Map`, unreachable again once the function returns.  The world
retains the allocated stores only to record them. -/
structure MemWorld where
  stores : List MemoryCache := []
deriving DecidableEq, Repr

/-- `setCache` (`cache.ts` lines 17-20), memory backend: constructs a
brand-new `MemoryCache` via `getCacheStore` and writes into it. -/
def setCacheMemory (w : MemWorld) (now : Nat) (key value : String) (ttl : Nat) : MemWorld :=
  let store : MemoryCache := ⟨[]⟩
  ⟨w.stores ++ [store.set now key value (some ttl)]⟩

/-- `getCache` (`cache.ts` lines 22-25), memory backend: constructs a
brand-new `MemoryCache` via `getCacheStore` and reads from it. -/
def getCacheMemory (w : MemWorld) (now : Nat) (key : String) : Option String × MemWorld :=
  let store : MemoryCache := ⟨[]⟩
  let r := store.get now key
  (r.1, ⟨w.stores ++ [r.2]⟩)

/-- `deleteCache` (`cache.ts` lines 27-30), memory backend. -/
def deleteCacheMemory (w : MemWorld) (key : String) : MemWorld :=
  let store : MemoryCache := ⟨[]⟩
  ⟨w.stores ++ [store.delete key]⟩

/-- `clearCache` (`cache.ts` lines 32-35), memory backend. -/
def clearCacheMemory (w : MemWorld) : MemWorld :=
  let store : MemoryCache := ⟨[]⟩
  ⟨w.stores ++ [store.clear]⟩

/-- An entry of the external Redis server: value plus optional absolute
expiry time in milliseconds. -/
structure RedisEntry where
  value : String
  expiresAt : Option Nat := none
deriving DecidableEq, Repr

/-- The external Redis server state.  `new RedisCache()` (one per module
cache call) connects to this same server via `REDIS_URL`, so unlike the
memory backend its state persists across module-level cache calls. -/
structure RedisServer where
  entries : List (String × RedisEntry) := []
deriving DecidableEq, Repr

/-- Redis `GET`: absent or expired keys read as nil. -/
def RedisServer.get (srv : RedisServer) (now : Nat) (key : String) : Option String :=
  match srv.entries.lookup key with
  | none => none
  | some e =>
    match e.expiresAt with
    | some t => if now ≥ t then none else some e.value
    | none => some e.value

/-- Redis `SET`: stores the value and clears any previous expiry. -/
def RedisServer.set (srv : RedisServer) (key value : String) : RedisServer :=
  ⟨alistSet srv.entries key ⟨value, none⟩⟩

/-- Redis `EXPIRE key ttl` (seconds): sets expiry at `now + ttl*1000`. -/
def RedisServer.expire (srv : RedisServer) (now : Nat) (key : String) (ttl : Nat) : RedisServer :=
  ⟨srv.entries.map fun kv =>
    if kv.1 == key then (kv.1, { kv.2 with expiresAt := some (now + ttl * 1000) }) else kv⟩

/-- Redis `DEL`. -/
def RedisServer.del (srv : RedisServer) (key : String) : RedisServer :=
  ⟨alistRemove srv.entries key⟩

/-- `setCache` (`cache.ts` lines 17-20), redis backend (`redis.ts` lines
63-68): `SET`, then `EXPIRE` when `ttl` is truthy. -/
def setCacheRedis (srv : RedisServer) (now : Nat) (key value : String) (ttl : Nat) : RedisServer :=
  let srv1 := srv.set key value
  if ttl != 0 then srv1.expire now key ttl else srv1

/-- `getCache` (`cache.ts` lines 22-25), redis backend (`redis.ts` lines
48-54; client errors are swallowed into null and are not modelled). -/
def getCacheRedis (srv : RedisServer) (now : Nat) (key : String) : Option String :=
  srv.get now key

/-- `deleteCache` (`cache.ts` lines 27-30), redis backend. -/
def deleteCacheRedis (srv : RedisServer) (key : String) : RedisServer :=
  srv.del key

/-- `AnimeRepository.findById` (`anime-repository.ts` lines 53-60):
`SELECT * FROM anime WHERE mal_id = ?` takes the first matching row;
row-to-entity conversion (`toAnime`) is the identity on the modelled fields.
The table is modelled as the list of its rows. -/
def repoFindById (db : List Anime) (id : Nat) : Option Anime :=
  db.find? fun a => a.mal_id == id

/-- `AnimeRepository.create` (`anime-repository.ts` lines 71-78): executes
the fixed-column INSERT from `toAnimeInsertSQL`.  Modelled from the spec:
the schema bootstrap DDL is not under `src/`, and the spec (Section 6) makes
`mal_id` the primary key, so inserting a duplicate identifier violates the
constraint and the statement throws (`none`). -/
def repoCreate (db : List Anime) (item : Anime) : Option (List Anime) :=
  if db.any fun a => a.mal_id == item.mal_id then none else some (db ++ [item])

/-- The row resulting from `toAnimeUpdateSQL`'s UPDATE: every non-key column
is set from the supplied (possibly partial) entity, with absent fields
becoming NULL in the row and reading back as their defaults via `toAnime`. -/
def applyAnimePatch (row : Anime) (patch : AnimePatch) : Anime :=
  { mal_id := row.mal_id, title := patch.title.getD "" }

/-- `AnimeRepository.update` (`anime-repository.ts` lines 147-158): runs
`toAnimeUpdateSQL`, whose WHERE clause binds the *patch's* `mal_id`
(`WHERE [mal_id] = ?` with `a.mal_id`); an absent patch `mal_id` binds NULL
and matches no row.  When zero rows changed it resolves to null; otherwise it
re-reads via `findById` with the `id` argument.  Returns the resolution and
the table afterwards. -/
def repoUpdate (db : List Anime) (id : Nat) (item : AnimePatch) : Option Anime × List Anime :=
  match item.mal_id with
  | none => (none, db)
  | some pid =>
    if db.any fun a => a.mal_id == pid then
      let db1 := db.map fun a => if a.mal_id == pid then applyAnimePatch a item else a
      (repoFindById db1 id, db1)
    else (none, db)

/-- Cache key used by the service for id lookups: `` `anime_${id}` ``. -/
def animeIdKey (id : Nat) : String := "anime_" ++ toString id

/-- Cache key used by `AnimeService.findByQuery`:
`` `anime_${QueryToString(options)}` ``. -/
def animeQueryKey (options : QueryOptions) : String :=
  "anime_" ++ QueryToString options

/-- The system state for the redis-backed composition of the service:
the external Redis server, the anime table, and an instrumentation counter
of repository statements executed against the persistent store. -/
structure RedisSys where
  redis : RedisServer := {}
  db : List Anime := []
  repoCalls : Nat := 0
deriving DecidableEq, Repr

/-- `AnimeService.findById` (`anime-service.ts` lines 35-52), redis backend.
The source does NOT await `this.repository.findById(id)`: `anime` is the
Promise object itself, which is always truthy, and
`JSON.stringify(anime)` serializes the pending Promise as `promiseJson`.
`return anime` inside the async function resolves the nested promise, so the
caller still receives the repository's value. -/
def svcFindByIdRedis (now : Nat) (st : RedisSys) (id : Nat) : Option Anime × RedisSys :=
  let animeCache := getCacheRedis st.redis now (animeIdKey id)
  if truthyStrOpt animeCache then
    (parseAnime (animeCache.getD ""), st)
  else
    let anime : JSPromise (Option Anime) := ⟨repoFindById st.db id⟩
    let st1 : RedisSys := { st with repoCalls := st.repoCalls + 1 }
    if anime.truthy then
      let st2 := { st1 with redis := setCacheRedis st1.redis now (animeIdKey id) promiseJson CACHE_TTL }
      (anime.value, st2)
    else (none, st1)

/-- `AnimeService.create` (`anime-service.ts` lines 100-106), redis backend:
persists via the repository (awaited), then writes the serialized entity
through to the cache keyed by its `mal_id`.  `none` models the repository
throwing on an invalid insert. -/
def svcCreateRedis (now : Nat) (st : RedisSys) (item : Anime) : Option (Anime × RedisSys) :=
  match repoCreate st.db item with
  | none => none
  | some db1 =>
    let createdAnime := item
    let st1 : RedisSys := { st with db := db1, repoCalls := st.repoCalls + 1 }
    let st2 := { st1 with redis := setCacheRedis st1.redis now (animeIdKey createdAnime.mal_id) (stringifyAnime createdAnime) CACHE_TTL }
    some (createdAnime, st2)

/-- `AnimeService.update` (`anime-service.ts` lines 117-125), redis backend.
As in `findById`, the source does NOT await `this.repository.update(...)`:
`updatedAnime` is the Promise object (always truthy), so the cache is
overwritten with `promiseJson` on every call, including when zero rows
changed; the returned promise still resolves to the repository's value. -/
def svcUpdateRedis (now : Nat) (st : RedisSys) (id : Nat) (item : AnimePatch) : Option Anime × RedisSys :=
  let r := repoUpdate st.db id item
  let updatedAnime : JSPromise (Option Anime) := ⟨r.1⟩
  let st1 : RedisSys := { st with db := r.2, repoCalls := st.repoCalls + 1 }
  if updatedAnime.truthy then
    let st2 := { st1 with redis := setCacheRedis st1.redis now (animeIdKey id) promiseJson CACHE_TTL }
    (updatedAnime.value, st2)
  else (none, st1)

/-- `AnimeService.findByQuery` (`anime-service.ts` lines 73-90), redis
backend.  The repository's dynamic query runs on the external SQL engine, so
its result is supplied as the function `rfbq`; executing it counts as a
persistent-store access.  Non-empty results are written through to the cache
under `animeQueryKey`; empty results are returned uncached. -/
def svcFindByQueryRedis (rfbq : QueryOptions → List Anime) (now : Nat) (st : RedisSys) (options : QueryOptions) : List Anime × RedisSys :=
  let cacheKey := animeQueryKey options
  let animeCache := getCacheRedis st.redis now cacheKey
  if truthyStrOpt animeCache then
    ((parseAnimeList (animeCache.getD "")).getD [], st)
  else
    let animeList := rfbq options
    let st1 : RedisSys := { st with repoCalls := st.repoCalls + 1 }
    if animeList.length > 0 then
      let st2 := { st1 with redis := setCacheRedis st1.redis now cacheKey (stringifyAnimeList animeList) CACHE_TTL }
      (animeList, st2)
    else ([], st1)

/-- The system state for the memory-backed composition of the service
(`CACHE_STORE=memory`): the world of allocated `MemoryCache` stores, the
anime table, and the repository-statement instrumentation counter. -/
structure MemSys where
  world : MemWorld := {}
  db : List Anime := []
  repoCalls : Nat := 0
deriving DecidableEq, Repr

/-- `AnimeService.findById`, memory backend: identical source code to
`svcFindByIdRedis`, composed with the memory-backed cache module. -/
def svcFindByIdMemory (now : Nat) (st : MemSys) (id : Nat) : Option Anime × MemSys :=
  let r := getCacheMemory st.world now (animeIdKey id)
  let st0 : MemSys := { st with world := r.2 }
  if truthyStrOpt r.1 then
    (parseAnime (r.1.getD ""), st0)
  else
    let anime : JSPromise (Option Anime) := ⟨repoFindById st0.db id⟩
    let st1 : MemSys := { st0 with repoCalls := st0.repoCalls + 1 }
    if anime.truthy then
      let st2 := { st1 with world := setCacheMemory st1.world now (animeIdKey id) promiseJson CACHE_TTL }
      (anime.value, st2)
    else (none, st1)

/-- `AnimeService.create`, memory backend. -/
def svcCreateMemory (now : Nat) (st : MemSys) (item : Anime) : Option (Anime × MemSys) :=
  match repoCreate st.db item with
  | none => none
  | some db1 =>
    let createdAnime := item
    let st1 : MemSys := { st with db := db1, repoCalls := st.repoCalls + 1 }
    let st2 := { st1 with world := setCacheMemory st1.world now (animeIdKey createdAnime.mal_id) (stringifyAnime createdAnime) CACHE_TTL }
    some (createdAnime, st2)

/-- `AnimeService.update`, memory backend (same missing await as the redis
composition). -/
def svcUpdateMemory (now : Nat) (st : MemSys) (id : Nat) (item : AnimePatch) : Option Anime × MemSys :=
  let r := repoUpdate st.db id item
  let updatedAnime : JSPromise (Option Anime) := ⟨r.1⟩
  let st1 : MemSys := { st with db := r.2, repoCalls := st.repoCalls + 1 }
  if updatedAnime.truthy then
    let st2 := { st1 with world := setCacheMemory st1.world now (animeIdKey id) promiseJson CACHE_TTL }
    (updatedAnime.value, st2)
  else (none, st1)

/-- `Partial<Anime>` as passed by the sync pipeline: the fetched entity with
all modelled fields present. -/
def patchOfAnime (a : Anime) : AnimePatch :=
  { mal_id := some a.mal_id, title := some a.title }

/-- Outcome of `fetchWithRetry` on the upstream per-item URL: either the
JSON envelope was obtained (with its `data` field, `none` when missing or
null) or the fetch threw after exhausting its retries. -/
inductive FetchResult where
  | ok (data : Option Anime) : FetchResult
  | err : FetchResult
deriving DecidableEq, Repr

/-- State carried by `runSyncAnime` (`sync-anime.ts`): the service system
state, the `anime.lastIndex` entry of the progress file, and the report
counters. -/
structure SyncSt where
  sys : MemSys := {}
  progress : Option Int := none
  processed : Nat := 0
  created : Nat := 0
  updated : Nat := 0
  skipped : Nat := 0
  failed : Nat := 0
deriving DecidableEq, Repr

/-- The effective start index of `runSyncAnime` (`sync-anime.ts` lines
125-132): start from `fromIndex`; when `--resume` is given and the progress
file holds a numeric `lastIndex >= -1`, take
`Math.max(startIndex, saved + 1)`. -/
def determineStartIndex (fromIndex : Int) (resume : Bool) (saved : Option Int) : Int :=
  if resume then
    match saved with
    | some s => if -1 ≤ s then max fromIndex (s + 1) else fromIndex
    | none => fromIndex
  else fromIndex

/-- One iteration of the sync loop (`sync-anime.ts` lines 147-185), using
the memory-backed service composition.  The try block classifies the item
(skip / update / create, or failed via the catch on a fetch error, a missing
`data` field, or a repository throw); the finally block then writes the
checkpoint `currentIndex`, on every path. -/
def syncStep (forceUpdate : Bool) (now : Nat) (malId : Nat) (fetch : FetchResult) (currentIndex : Int) (st : SyncSt) : SyncSt :=
  let st1 :=
    let r := svcFindByIdMemory now st.sys malId
    let stA := { st with sys := r.2 }
    let existsA := r.1
    if existsA.isSome && !forceUpdate then
      { stA with skipped := stA.skipped + 1, processed := stA.processed + 1 }
    else
      match fetch with
      | .err => { stA with failed := stA.failed + 1 }
      | .ok none => { stA with failed := stA.failed + 1 }
      | .ok (some anime) =>
        if existsA.isSome then
          let u := svcUpdateMemory now stA.sys malId (patchOfAnime anime)
          { stA with sys := u.2, updated := stA.updated + 1, processed := stA.processed + 1 }
        else
          match svcCreateMemory now stA.sys anime with
          | some p => { stA with sys := p.2, created := stA.created + 1, processed := stA.processed + 1 }
          | none => { stA with failed := stA.failed + 1 }
  { st1 with progress := some currentIndex }

/-- The sync loop over the sliced ID list, each item paired with its
upstream fetch outcome, starting at absolute index `idx`.  The fixed
1-second inter-iteration spacing only advances time and is not observable in
the modelled state. -/
def runSyncLoop (forceUpdate : Bool) (now : Nat) : List (Nat × FetchResult) → Int → SyncSt → SyncSt
  | [], _, st => st
  | item :: rest, idx, st =>
    runSyncLoop forceUpdate now rest (idx + 1) (syncStep forceUpdate now item.1 item.2 idx st)

/-- A serialized entity is a non-empty string (so it is truthy in JS). -/
theorem stringifyAnime_ne_empty (a : Anime) : stringifyAnime a ≠ "" := by
  intro h
  have h2 := congrArg String.length h
  have hp1 : ("\x7b\"mal_id\":" : String).length = 10 := rfl
  have hp2 : ((",\"title\":\"" : String)).length = 10 := rfl
  have hp3 : (("\"\x7d" : String)).length = 2 := rfl
  have hp0 : (("" : String)).length = 0 := rfl
  simp only [stringifyAnime, String.length_append, hp1, hp2, hp3, hp0] at h2
  omega

/-- A serialized entity list is a non-empty string. -/
theorem stringifyAnimeList_ne_empty (l : List Anime) : stringifyAnimeList l ≠ "" := by
  intro h
  have h2 := congrArg String.length h
  have hp1 : (("[" : String)).length = 1 := rfl
  have hp2 : (("]" : String)).length = 1 := rfl
  have hp0 : (("" : String)).length = 0 := rfl
  simp only [stringifyAnimeList, String.length_append, hp1, hp2, hp0] at h2
  omega

/-- Lookup after the in-place-update branch of `alistSet`. -/
theorem lookup_map_set {α : Type} (l : List (String × α)) (k : String) (v : α)
    (h : l.any (·.1 == k) = true) :
    (l.map fun kv => if kv.1 == k then (k, v) else kv).lookup k = some v := by
  induction l with
  | nil => simp at h
  | cons a t ih =>
    obtain ⟨ak, av⟩ := a
    by_cases hk : ((ak == k) = true)
    · have hk2 : ak = k := eq_of_beq hk
      subst hk2
      simp only [List.map_cons]
      rw [if_pos hk]
      simp [List.lookup]
    · rw [List.map_cons, if_neg hk]
      have hkf : (ak == k) = false := by rwa [Bool.not_eq_true] at hk
      have ht : t.any (·.1 == k) = true := by simpa [List.any_cons, hkf] using h
      have hk3 : (k == ak) = false := by
        rw [beq_eq_false_iff_ne] at hkf ⊢
        exact Ne.symm hkf
      simpa [List.lookup, hk3] using ih ht

/-- Lookup after the append branch of `alistSet`. -/
theorem lookup_append_single {α : Type} (l : List (String × α)) (k : String) (v : α)
    (h : l.any (·.1 == k) = false) :
    (l ++ [(k, v)]).lookup k = some v := by
  induction l with
  | nil => simp [List.lookup]
  | cons a t ih =>
    obtain ⟨ak, av⟩ := a
    have hkf : (ak == k) = false := by
      by_contra hc
      rw [Bool.not_eq_false] at hc
      simp [List.any_cons, hc] at h
    have ht : t.any (·.1 == k) = false := by simpa [List.any_cons, hkf] using h
    have hk3 : (k == ak) = false := by
      rw [beq_eq_false_iff_ne] at hkf ⊢
      exact Ne.symm hkf
    simp [List.lookup, hk3, ih ht]

/-- Looking up the key just written by `alistSet` yields the new value. -/
theorem lookup_alistSet_self {α : Type} (l : List (String × α)) (k : String) (v : α) :
    (alistSet l k v).lookup k = some v := by
  unfold alistSet
  split
  · exact lookup_map_set l k v (by assumption)
  · rename_i hany
    rw [Bool.not_eq_true] at hany
    exact lookup_append_single l k v hany

/-- `EXPIRE` rewrites the targeted key's expiry, as seen by lookup. -/
theorem lookup_expire (srv : RedisServer) (now : Nat) (k : String) (ttl : Nat) :
    (srv.expire now k ttl).entries.lookup k =
      (srv.entries.lookup k).map (fun e => { e with expiresAt := some (now + ttl * 1000) }) := by
  unfold RedisServer.expire
  induction srv.entries with
  | nil => simp [List.lookup]
  | cons a t ih =>
    obtain ⟨ak, av⟩ := a
    by_cases hk : ((ak == k) = true)
    · have hk2 : ak = k := eq_of_beq hk
      subst hk2
      simp only [List.map_cons]
      rw [if_pos hk]
      simp [List.lookup]
    · rw [List.map_cons, if_neg hk]
      have hkf : (ak == k) = false := by rwa [Bool.not_eq_true] at hk
      have hk3 : (k == ak) = false := by
        rw [beq_eq_false_iff_ne] at hkf ⊢
        exact Ne.symm hkf
      simpa [List.lookup, hk3] using ih

/-- Reading back the key just written by the redis-backed `setCache`, before
its TTL elapses, yields the written value. -/
theorem getCacheRedis_setCacheRedis_same (srv : RedisServer) (now now2 : Nat) (k v : String)
    (ttl : Nat) (ht : ttl ≠ 0) (hn : now2 < now + ttl * 1000) :
    getCacheRedis (setCacheRedis srv now k v ttl) now2 k = some v := by
  unfold setCacheRedis getCacheRedis RedisServer.get
  have ht2 : (ttl != 0) = true := by simpa using ht
  rw [if_pos ht2, lookup_expire]
  have hset : (RedisServer.set srv k v).entries.lookup k = some ⟨v, none⟩ :=
    lookup_alistSet_self srv.entries k ⟨v, none⟩
  rw [hset]
  simp [Nat.not_le_of_lt hn]

/-- Dropping the filter entries whose key is not a known column does not
change the collected clauses or parameters. -/
theorem collectFilters_filter_known (cn : List String) (fs : List (String × Option JVal)) :
    collectFilters cn (fs.filter fun kv => cn.contains kv.1) = collectFilters cn fs := by
  induction fs with
  | nil => rfl
  | cons kv t ih =>
    obtain ⟨k, ov⟩ := kv
    have ih2 : collectFilters cn (List.filter (fun kv => decide (kv.1 ∈ cn)) t) = collectFilters cn t := by
      simpa using ih
    by_cases hm : k ∈ cn
    · cases ov with
      | none => simp [List.filter, hm, collectFilters, ih2]
      | some v => simp [List.filter, hm, collectFilters, ih2]
    · cases ov with
      | none => simp [List.filter, hm, collectFilters, ih2]
      | some v => simp [List.filter, hm, collectFilters, ih2]

/-- Substituting filter values changes only the collected parameters,
never the collected SQL clauses. -/
theorem collectFilters_map_vals (cn : List String) (f : JVal → JVal) (fs : List (String × Option JVal)) :
    collectFilters cn (fs.map fun kv => (kv.1, kv.2.map f)) =
      ((collectFilters cn fs).1, (collectFilters cn fs).2.map f) := by
  induction fs with
  | nil => rfl
  | cons kv t ih =>
    obtain ⟨k, ov⟩ := kv
    cases ov with
    | none => simpa [collectFilters] using ih
    | some v =>
      by_cases hm : k ∈ cn
      · simp [collectFilters, hm, ih]
      · simp [collectFilters, hm, ih]

/-- The parameters produced by the search block do not depend on whether an
equality-filter block precedes it. -/
theorem searchBlock_params (h1 h2 : Bool) (cols : List Column) (s : String) :
    (searchBlock h1 cols s).2 = (searchBlock h2 cols s).2 := by
  unfold searchBlock
  by_cases he : (titleTextCols cols).isEmpty = true
  · simp [he]
  · simp [he]

/-- The query options with every defined filter value rewritten by `f`
(definedness and keys untouched). -/
def mapFilterVals (f : JVal → JVal) (q : QueryOptions) : QueryOptions :=
  { q with filters := q.filters.map fun kv => (kv.1, kv.2.map f) }

/-- C2: every module-level cache operation constructs a brand-new backend
store instance via `getCacheStore`; with the in-process memory backend a
`getCache` performed after a completed `setCache` therefore returns absent
for every key, because the Map written by `set` is never the Map read by
`get` — each call allocates a fresh store. -/
theorem moduleCache_memory_get_after_set_absent (w : MemWorld) (now now2 : Nat)
    (k v k2 : String) (ttl : Nat) :
    (getCacheMemory (setCacheMemory w now k v ttl) now2 k2).1 = none
    ∧ (setCacheMemory w now k v ttl).stores.length = w.stores.length + 1
    ∧ ((getCacheMemory (setCacheMemory w now k v ttl) now2 k2).2).stores.length
        = w.stores.length + 2 := by
  refine ⟨rfl, by simp [setCacheMemory], ?_⟩
  simp [getCacheMemory, setCacheMemory, MemoryCache.get, List.lookup]

/-- C1 (code bug): on a cache miss `AnimeService.findById` does not await the
repository promise; at the failing inputs the entity is still returned (the
promise is flattened by the async return), but the cache is populated with
the serialization of the pending Promise (`promiseJson`, i.e. the empty JSON
object) instead of the entity's serialization — and it is populated even
when the repository finds nothing. -/
theorem animeService_findById_cache_population_bug :
    ((svcFindByIdRedis 0 { db := [⟨5, "T"⟩] } 5).1 = some ⟨5, "T"⟩
      ∧ getCacheRedis (svcFindByIdRedis 0 { db := [⟨5, "T"⟩] } 5).2.redis 0 (animeIdKey 5)
          = some promiseJson
      ∧ promiseJson ≠ stringifyAnime ⟨5, "T"⟩)
    ∧ ((svcFindByIdRedis 0 { db := [⟨5, "T"⟩] } 7).1 = none
      ∧ getCacheRedis (svcFindByIdRedis 0 { db := [⟨5, "T"⟩] } 7).2.redis 0 (animeIdKey 7)
          = some promiseJson) := by
  decide

/-- C4 (code bug): `AnimeService.update` does not await the repository
promise; at the failing input (no row with the id, cache pre-populated) the
update correctly returns absent, but the id-keyed cache entry is overwritten
with the serialized pending Promise instead of being left untouched. -/
theorem animeService_update_cache_frame_bug :
    (svcUpdateRedis 0 { redis := ⟨[("anime_9", ⟨"old", none⟩)]⟩ } 9
        { mal_id := some 9, title := some "t" }).1 = none
    ∧ getCacheRedis (svcUpdateRedis 0 { redis := ⟨[("anime_9", ⟨"old", none⟩)]⟩ } 9
        { mal_id := some 9, title := some "t" }).2.redis 0 "anime_9" = some promiseJson
    ∧ getCacheRedis ({ redis := ⟨[("anime_9", ⟨"old", none⟩)]⟩ } : RedisSys).redis 0 "anime_9"
        = some "old" := by
  decide

/-- C3 counterexample: with the in-process memory cache backend, after
`create(E)` the subsequent `findById(E.mal_id)` still returns E, but it is
not served from the cache — the repository-call counter rises from 1 to 2,
so the persistent store is invoked a second time, contrary to the claim. -/
theorem create_then_findById_memory_counterexample :
    (svcCreateMemory 0 {} ⟨1, "A"⟩).map
        (fun p => ((svcFindByIdMemory 0 p.2 1).1, p.2.repoCalls,
                   (svcFindByIdMemory 0 p.2 1).2.repoCalls))
      = some (some ⟨1, "A"⟩, 1, 2) := by
  decide

/-- C8: with the resume flag and a saved checkpoint `s >= -1` (every
checkpoint the pipeline writes is `>= 0`), the run starts at
`max(fromIndex, s + 1)`; with no saved checkpoint, or without the resume
flag, the run starts at `fromIndex`. -/
theorem sync_resume_start_index (f s : Int) (hs : -1 ≤ s) :
    determineStartIndex f true (some s) = max f (s + 1)
    ∧ determineStartIndex f true none = f
    ∧ (∀ sv : Option Int, determineStartIndex f false sv = f) := by
  refine ⟨?_, rfl, fun sv => rfl⟩
  have h : determineStartIndex f true (some s) = if -1 ≤ s then max f (s + 1) else f := rfl
  rw [h, if_pos hs]

/-- Witness for C8 at the spec's example: explicit from-index 100 with a
saved checkpoint at 500 resumes at index 501, not 100. -/
theorem sync_resume_start_index_witness :
    determineStartIndex 100 true (some 500) = 501 := by
  have h := sync_resume_start_index 100 500 (by norm_num)
  rw [h.1]
  decide

/-- C6 counterexample: a page of 0 with limit 5 passes the
non-negative-integer check (`0 >= 0`), so the translator DOES emit an OFFSET
clause, bound to `(0 - 1) * 5 = -5`, contrary to the claim that page 0
results in no offset being applied. -/
theorem queryToSQL_page_zero_offset_counterexample :
    QueryToSQL [⟨"mal_id", "INTEGER"⟩] { limit := some 5, page := some 0 } "anime"
      = ("SELECT *\n               FROM `anime` LIMIT ? OFFSET ?", [JVal.jint 5, JVal.jint (-5)])
    ∧ strIncludesSub
        (QueryToSQL [⟨"mal_id", "INTEGER"⟩] { limit := some 5, page := some 0 } "anime").1
        "OFFSET" = true := by
  decide

/-- C6 (amended): with a non-negative integer limit, `LIMIT ?` bound to the
limit is appended; `OFFSET ?`, bound to `(page - 1) * limit`, is appended
exactly when the page is additionally a non-negative integer — so a negative
(or absent) page yields no offset, while page 0 yields an offset bound to
`-limit`; without a valid limit, neither clause is emitted. -/
theorem queryToSQL_limit_and_offset (cols : List Column) (q : QueryOptions) (tn : String) :
    QueryToSQL cols q tn =
      (let core := QueryToSQL cols { q with limit := none, page := none } tn
       match q.limit with
       | some l =>
         if 0 ≤ l then
           if isPositiveInt q.page then
             (core.1 ++ " LIMIT ?" ++ " OFFSET ?",
              core.2 ++ [JVal.jint l, JVal.jint ((q.page.getD 0 - 1) * l)])
           else (core.1 ++ " LIMIT ?", core.2 ++ [JVal.jint l])
         else core
       | none => core) := by
  unfold QueryToSQL
  dsimp only
  cases hq : q.limit with
  | none => simp [isPositiveInt]
  | some l =>
    by_cases hl : (0 : Int) ≤ l
    · by_cases hp : isPositiveInt q.page = true
      · simp [isPositiveInt, hl, hp, List.append_assoc]
      · simp [isPositiveInt, hl, hp, List.append_assoc]
    · simp [isPositiveInt, hl]

/-- C5: filter entries whose key is not a known column are dropped silently —
removing them changes neither the SQL nor the parameters; and filter values
never reach the SQL text: rewriting every defined filter value leaves the
SQL unchanged, while the values appear (in entry order) as a prefix of the
parameter list, ahead of the search/pagination parameters. -/
theorem queryToSQL_identifier_and_value_safety (cols : List Column) (q : QueryOptions)
    (tn : String) (f : JVal → JVal) :
    QueryToSQL cols { q with filters := q.filters.filter fun kv => (cols.map (·.name)).contains kv.1 } tn
        = QueryToSQL cols q tn
    ∧ (QueryToSQL cols (mapFilterVals f q) tn).1 = (QueryToSQL cols q tn).1
    ∧ (QueryToSQL cols q tn).2
        = (collectFilters (cols.map (·.name)) q.filters).2
            ++ (QueryToSQL cols { q with filters := [] } tn).2 := by
  refine ⟨?_, ?_, ?_⟩
  · unfold QueryToSQL
    dsimp only
    rw [collectFilters_filter_known]
  · unfold QueryToSQL mapFilterVals
    dsimp only
    rw [collectFilters_map_vals]
    split_ifs <;> rfl
  · unfold QueryToSQL
    dsimp only
    simp only [collectFilters, List.isEmpty_nil, Bool.not_true]
    by_cases hs : truthyStrOpt q.search = true
    · simp only [hs, if_true]
      rw [searchBlock_params (!(collectFilters (cols.map (·.name)) q.filters).1.isEmpty) false]
      split_ifs <;> simp [List.append_assoc]
    · simp only [Bool.not_eq_true] at hs
      simp only [hs, Bool.false_eq_true, if_false]
      split_ifs <;> simp [List.append_assoc]

/-- C7: the counting query repeats exactly the WHERE predicate (equality
filters and title LIKE search) and the bound parameters of the selection
query, differing only in the selected head and in omitting ORDER BY, LIMIT
and OFFSET: its parameters equal those of the selection query stripped of
ordering and pagination, and the two SQL strings share their entire text
after their respective heads. -/
theorem countQuery_mirrors_query (cols : List Column) (q : QueryOptions) (tn : String) :
    (CountQueryToSQL cols q tn).2
        = (QueryToSQL cols { q with orderBy := none, limit := none, page := none } tn).2
    ∧ ∃ tail : String,
        (CountQueryToSQL cols q tn).1 = "SELECT COUNT(*) as count" ++ tail
        ∧ (QueryToSQL cols { q with orderBy := none, limit := none, page := none } tn).1
            = "SELECT *" ++ tail := by
  constructor
  · unfold CountQueryToSQL QueryToSQL
    dsimp only
    simp [isPositiveInt, truthyStrOpt]
  · refine ⟨"\n               FROM " ++ quoteIdent tn
        ++ (if (collectFilters (cols.map (·.name)) q.filters).1.isEmpty then ""
            else " WHERE " ++ String.intercalate " AND " (collectFilters (cols.map (·.name)) q.filters).1)
        ++ (if truthyStrOpt q.search then
              (searchBlock (!(collectFilters (cols.map (·.name)) q.filters).1.isEmpty) cols (q.search.getD "")).1
            else ""), ?_, ?_⟩
    · unfold CountQueryToSQL
      dsimp only
      by_cases hs : truthyStrOpt q.search = true
      · simp [hs]
        rw [(by decide : countHead = "SELECT COUNT(*) as count" ++ "\n               FROM ")]
        simp only [String.append_assoc]
      · simp only [Bool.not_eq_true] at hs
        simp [hs]
        rw [(by decide : countHead = "SELECT COUNT(*) as count" ++ "\n               FROM ")]
        simp only [String.append_assoc]
    · unfold QueryToSQL
      dsimp only
      have hOrd : truthyStrOpt (none : Option String) = false := rfl
      have hLim : isPositiveInt (none : Option Int) = false := rfl
      by_cases hs : truthyStrOpt q.search = true
      · simp [hs, hOrd, hLim]
        rw [(by decide : selectHead = "SELECT *" ++ "\n               FROM ")]
        simp only [String.append_assoc]
      · simp only [Bool.not_eq_true] at hs
        simp [hs, hOrd, hLim]
        rw [(by decide : selectHead = "SELECT *" ++ "\n               FROM ")]
        simp only [String.append_assoc]

/-- C3 (amended): the write-through holds when the configured cache backend
persists state across module-level cache calls (the redis backend): after
`create(E)` on a table with no row for `E.mal_id`, a `findById(E.mal_id)`
performed before the cache TTL elapses returns a value equal to E from the
cache, with the state (including the persistent-store call counter)
untouched — the store is not invoked a second time.  With the in-process
memory backend the property fails (see the counterexample). -/
theorem create_then_findById_redis_cache_hit (st : RedisSys) (E : Anime) (now1 now2 : Nat)
    (hfresh : st.db.any (fun a => a.mal_id == E.mal_id) = false)
    (hrt : parseAnime (stringifyAnime E) = some E)
    (hn : now2 < now1 + CACHE_TTL * 1000) :
    ∃ st1 : RedisSys, svcCreateRedis now1 st E = some (E, st1)
      ∧ svcFindByIdRedis now2 st1 E.mal_id = (some E, st1) := by
  have hc : repoCreate st.db E = some (st.db ++ [E]) := by
    unfold repoCreate
    simp [hfresh]
  refine ⟨{ st with db := st.db ++ [E], repoCalls := st.repoCalls + 1, redis := setCacheRedis st.redis now1 (animeIdKey E.mal_id) (stringifyAnime E) CACHE_TTL }, ?_, ?_⟩
  · unfold svcCreateRedis
    rw [hc]
  · unfold svcFindByIdRedis
    dsimp only
    have hget : getCacheRedis
        (setCacheRedis st.redis now1 (animeIdKey E.mal_id) (stringifyAnime E) CACHE_TTL)
        now2 (animeIdKey E.mal_id) = some (stringifyAnime E) :=
      getCacheRedis_setCacheRedis_same _ _ _ _ _ _ (by decide) hn
    rw [hget]
    have htr : truthyStrOpt (some (stringifyAnime E)) = true := by
      simp [truthyStrOpt, stringifyAnime_ne_empty E]
    rw [if_pos htr]
    simp [hrt]

/-- Witness for the amended C3 at a concrete entity and empty initial
state: the create succeeds and the immediate findById is a cache hit
returning the same entity with the same state. -/
theorem create_then_findById_redis_cache_hit_witness :
    ∃ st1 : RedisSys, svcCreateRedis 0 {} ⟨1, "A"⟩ = some (⟨1, "A"⟩, st1)
      ∧ svcFindByIdRedis 0 st1 1 = (some ⟨1, "A"⟩, st1) :=
  create_then_findById_redis_cache_hit {} ⟨1, "A"⟩ 0 0 (by decide) (by decide) (by decide)

/-- C10: `QueryToString` never reads the `search` field, so two query
options differing only in `search` serialize identically, and
`AnimeService.findByQuery` derives the same cache key for both; with a
persisting cache backend, a findByQuery for one search term (cache-miss,
non-empty repository result `L`) caches `L` under that shared key, and a
subsequent findByQuery for a different search term within the TTL window is
answered with `L` from the cache, whatever the repository would have
returned for it. -/
theorem findByQuery_cache_collision_across_searches
    (q : QueryOptions) (s1 s2 : Option String) (rfbq : QueryOptions → List Anime)
    (st : RedisSys) (now1 now2 : Nat)
    (hmiss : getCacheRedis st.redis now1 (animeQueryKey { q with search := s1 }) = none)
    (hne : rfbq { q with search := s1 } ≠ [])
    (hrt : parseAnimeList (stringifyAnimeList (rfbq { q with search := s1 }))
        = some (rfbq { q with search := s1 }))
    (hn : now2 < now1 + CACHE_TTL * 1000) :
    QueryToString { q with search := s1 } = QueryToString { q with search := s2 }
    ∧ animeQueryKey { q with search := s1 } = animeQueryKey { q with search := s2 }
    ∧ (svcFindByQueryRedis rfbq now2
          (svcFindByQueryRedis rfbq now1 st { q with search := s1 }).2
          { q with search := s2 }).1
        = rfbq { q with search := s1 } := by
  have hqs : ∀ s : Option String, QueryToString { q with search := s } = QueryToString q := by
    intro s
    unfold QueryToString
    rfl
  have hkey : animeQueryKey { q with search := s1 } = animeQueryKey { q with search := s2 } := by
    unfold animeQueryKey
    rw [hqs s1, hqs s2]
  refine ⟨(hqs s1).trans (hqs s2).symm, hkey, ?_⟩
  have hfirst : (svcFindByQueryRedis rfbq now1 st { q with search := s1 }).2
      = { st with repoCalls := st.repoCalls + 1,
                  redis := setCacheRedis st.redis now1 (animeQueryKey { q with search := s1 })
                    (stringifyAnimeList (rfbq { q with search := s1 })) CACHE_TTL } := by
    unfold svcFindByQueryRedis
    dsimp only
    rw [hmiss]
    have hlen : 0 < (rfbq { q with search := s1 }).length := List.length_pos.mpr hne
    rw [if_neg (by simp [truthyStrOpt] : ¬ truthyStrOpt (none : Option String) = true), if_pos hlen]
  rw [hfirst]
  unfold svcFindByQueryRedis
  dsimp only
  rw [← hkey]
  have hget : getCacheRedis
      (setCacheRedis st.redis now1 (animeQueryKey { q with search := s1 })
        (stringifyAnimeList (rfbq { q with search := s1 })) CACHE_TTL)
      now2 (animeQueryKey { q with search := s1 })
      = some (stringifyAnimeList (rfbq { q with search := s1 })) :=
    getCacheRedis_setCacheRedis_same _ _ _ _ _ _ (by decide) hn
  rw [hget]
  have htr : truthyStrOpt (some (stringifyAnimeList (rfbq { q with search := s1 }))) = true := by
    simp [truthyStrOpt, stringifyAnimeList_ne_empty]
  rw [if_pos htr]
  simp [hrt]

/-- Witness for C10: the repository answers `[⟨1, "A"⟩]` for search "one"
and `[]` for anything else, yet the findByQuery for search "two", issued
after the one for "one", returns `[⟨1, "A"⟩]` from the shared cache key. -/
theorem findByQuery_cache_collision_witness :
    (svcFindByQueryRedis (fun o => if o.search == some "one" then [⟨1, "A"⟩] else []) 0
        (svcFindByQueryRedis (fun o => if o.search == some "one" then [⟨1, "A"⟩] else []) 0 {}
          { page := some 1, limit := some 25, search := some "one" }).2
        { page := some 1, limit := some 25, search := some "two" }).1
      = [⟨1, "A"⟩]
    ∧ (fun (o : QueryOptions) => if o.search == some "one" then [(⟨1, "A"⟩ : Anime)] else [])
        { page := some 1, limit := some 25, search := some "two" } = [] := by
  have h := findByQuery_cache_collision_across_searches
      { page := some 1, limit := some 25 } (some "one") (some "two")
      (fun o => if o.search == some "one" then [⟨1, "A"⟩] else []) {} 0 0
      (by decide) (by decide) (by decide) (by decide)
  exact ⟨h.2.2, by decide⟩

/-- One sync iteration always writes the checkpoint of its own index (the
finally block runs on every path), adds exactly one to
`processed + failed`, and adds exactly one to the sum of the four outcome
counters — whatever the item's outcome. -/
theorem syncStep_frame (forceUpdate : Bool) (now : Nat) (malId : Nat) (fetch : FetchResult)
    (idx : Int) (st : SyncSt) :
    (syncStep forceUpdate now malId fetch idx st).progress = some idx
    ∧ (syncStep forceUpdate now malId fetch idx st).processed
        + (syncStep forceUpdate now malId fetch idx st).failed
        = st.processed + st.failed + 1
    ∧ (syncStep forceUpdate now malId fetch idx st).created
        + (syncStep forceUpdate now malId fetch idx st).updated
        + (syncStep forceUpdate now malId fetch idx st).skipped
        + (syncStep forceUpdate now malId fetch idx st).failed
        = st.created + st.updated + st.skipped + st.failed + 1 := by
  refine ⟨rfl, ?_, ?_⟩ <;>
  · unfold syncStep
    dsimp only
    split
    · dsimp only
      omega
    · split
      · dsimp only
        omega
      · dsimp only
        omega
      · split
        · dsimp only
          omega
        · split
          · dsimp only
            omega
          · dsimp only
            omega

/-- C9: over any ID list with any per-item outcomes, the sync loop never
aborts: every item adds exactly one to `processed + failed` and exactly one
to the sum of the four outcome counters (so the final report reflects
every item, each independently classified), the checkpoint is written after
each item inside the guaranteed-run finally step (a single step's progress
is its own index, on every path), and a non-empty run ends with the
checkpoint at the last processed absolute index. -/
theorem syncLoop_checkpoint_and_counters (forceUpdate : Bool) (now : Nat)
    (items : List (Nat × FetchResult)) (idx : Int) (st : SyncSt) :
    (runSyncLoop forceUpdate now items idx st).processed
        + (runSyncLoop forceUpdate now items idx st).failed
        = st.processed + st.failed + items.length
    ∧ (runSyncLoop forceUpdate now items idx st).created
        + (runSyncLoop forceUpdate now items idx st).updated
        + (runSyncLoop forceUpdate now items idx st).skipped
        + (runSyncLoop forceUpdate now items idx st).failed
        = st.created + st.updated + st.skipped + st.failed + items.length
    ∧ (∀ malId fetch (st2 : SyncSt),
        (syncStep forceUpdate now malId fetch idx st2).progress = some idx)
    ∧ (items ≠ [] →
        (runSyncLoop forceUpdate now items idx st).progress = some (idx + items.length - 1)) := by
  induction items generalizing idx st with
  | nil =>
    refine ⟨by simp [runSyncLoop], by simp [runSyncLoop], ?_, by simp⟩
    intro malId fetch st2
    exact (syncStep_frame forceUpdate now malId fetch idx st2).1
  | cons item rest ih =>
    have hstep := syncStep_frame forceUpdate now item.1 item.2 idx st
    have hrun : runSyncLoop forceUpdate now (item :: rest) idx st
        = runSyncLoop forceUpdate now rest (idx + 1) (syncStep forceUpdate now item.1 item.2 idx st) := rfl
    have ih2 := ih (idx + 1) (syncStep forceUpdate now item.1 item.2 idx st)
    refine ⟨?_, ?_, ?_, ?_⟩
    · rw [hrun]
      rw [ih2.1]
      simp only [List.length_cons]
      omega
    · rw [hrun]
      rw [ih2.2.1]
      simp only [List.length_cons]
      omega
    · intro malId fetch st2
      exact (syncStep_frame forceUpdate now malId fetch idx st2).1
    · intro _
      rw [hrun]
      cases hr : rest with
      | nil =>
        have hprog := hstep.1
        simp only [runSyncLoop, hr] at *
        rw [hprog]
        congr 1
        simp
      | cons r rs =>
        have hp := ih2.2.2.2 (by simp [hr])
        rw [hr] at hp
        rw [hp]
        congr 1
        simp only [List.length_cons]
        push_cast
        ring

/-- Witness for C9 on the spec's failure-isolation scenario: IDs 10, 20, 30
on an empty store, upstream failing permanently for 20: the loop still
processes all three items, the counters account for every item
(`processed + failed = 3`), and the checkpoint ends at index 2. -/
theorem syncLoop_checkpoint_and_counters_witness :
    (runSyncLoop false 0
        [(10, .ok (some ⟨10, "a"⟩)), (20, .err), (30, .ok (some ⟨30, "c"⟩))] 0 {}).progress
      = some 2
    ∧ (runSyncLoop false 0
        [(10, .ok (some ⟨10, "a"⟩)), (20, .err), (30, .ok (some ⟨30, "c"⟩))] 0 {}).processed
      + (runSyncLoop false 0
        [(10, .ok (some ⟨10, "a"⟩)), (20, .err), (30, .ok (some ⟨30, "c"⟩))] 0 {}).failed
      = 3 := by
  have h := syncLoop_checkpoint_and_counters false 0
      [(10, .ok (some ⟨10, "a"⟩)), (20, .err), (30, .ok (some ⟨30, "c"⟩))] 0 {}
  constructor
  · have hp := h.2.2.2 (by decide)
    simpa using hp
  · simpa using h.1
